import Mathlib

/-!
Shallow embedding of `bookchain-covers` (`src/main.rs`), a CLI that downloads
high-resolution cover images for NFT book assets of a given policy id.

Pure Rust functions become Lean functions; the effectful pipeline
(`main`, `fetch_files`, `collections`, `download_binary`) is embedded as
explicit state passing over a `St` record (disk contents, dedup hash set,
event trace), with the network and filesystem outcomes supplied by oracle
structures (`Env`, `MainEnv`).  Fallible steps return `Except Err`; a Rust
panic is the distinguished error `Err.panic`.  Machine integers (`u32`,
`i32`) are modelled as `Nat`/`Int` with explicit range checks where the
source checks them.
-/

namespace BookCovers

/-- Error outcomes of the pipeline: `?`-propagated failures and panics. -/
inductive Err where
  | parse   -- quantity/JSON parse failures propagated with `?`
  | api     -- Blockfrost API error
  | http    -- reqwest / gateway error
  | io      -- filesystem error
  | panic   -- Rust panic (e.g. out-of-bounds `String::drain`)
  deriving DecidableEq, Repr

/-- Observable events of a run: network calls, filesystem operations and
console output, in program order. -/
inductive Event where
  | apiAssetsPolicy (policyId : String)       -- assets_policy_by_id call
  | apiAssetDetails (assetId : String)        -- assets_by_id call
  | httpGet (url : String)                    -- one HTTP GET attempt (gateway or book.io)
  | fsRead (path : String)                    -- fs::read
  | fsWriteTmp (path : String) (data : List Nat) -- fs::write
  | fsRename (src : String) (dst : String)    -- fs::rename
  | log (msg : String)                        -- println!/print!
  deriving DecidableEq, Repr

/-- `blockfrost::AssetPolicy`: asset id plus quantity-as-string. -/
structure AssetPolicy where
  asset : String
  quantity : String
  deriving DecidableEq, Repr

/-- JSON values, as needed for `serde_json::Value` indexing in
`get_high_res_cover_path`. -/
inductive Json where
  | null
  | bool (b : Bool)
  | num (n : Int)
  | str (s : String)
  | arr (elems : List Json)
  | obj (fields : List (String × Json))

/-- `json[key]` on an object: first binding of `key`, `null` when absent or
when the value is not an object (serde_json's `Index` impl). -/
def Json.get : Json → String → Json
  | .obj fields, key =>
    match fields.find? (fun p => p.1 = key) with
    | some p => p.2
    | none => .null
  | _, _ => .null

/-- `json[i]` on an array: `i`-th element, `null` when out of bounds or when
the value is not an array. -/
def Json.idx : Json → Nat → Json
  | .arr elems, i => (elems.get? i).getD .null
  | _, _ => .null

/-- `Value::as_str`: the string payload, `none` for non-strings. -/
def Json.asStr : Json → Option String
  | .str s => some s
  | _ => none

/-- `blockfrost::AssetDetails`, restricted to the one field the program
reads. -/
structure AssetDetails where
  onchain_metadata : Option Json

/-- One entry of the book.io collections response. -/
structure DataEntry where
  collection_id : String
  description : String
  blockchain : String
  network : String
  deriving DecidableEq, Repr

/-- The book.io collections response body. -/
structure CollectionsResponse where
  data_type : String
  data : List DataEntry
  deriving DecidableEq, Repr

/-- The `Config` struct: configuration threaded through `fetch_files`
(the API handle itself lives in the oracle `Env`). -/
structure Config where
  ipfs_gateway : String
  work_dir : String
  deriving DecidableEq, Repr

/-- Mutable run state: filesystem contents, the `file_hashes` dedup set and
the trace of observable events. -/
structure St where
  disk : List (String × List Nat)
  hashes : List String
  trace : List Event
  deriving DecidableEq, Repr

/-- `Path::exists` on the modelled disk. -/
def diskHas (d : List (String × List Nat)) (f : String) : Bool :=
  d.any (fun p => p.1 = f)

/-- `fs::read` on the modelled disk (callers only read files they know
exist; a missing file reads as empty). -/
def diskGet (d : List (String × List Nat)) (f : String) : List Nat :=
  ((d.find? (fun p => p.1 = f)).map (fun p => p.2)).getD []

/-- Drop a path from the modelled disk (the source half of a rename). -/
def diskRemove (d : List (String × List Nat)) (f : String) :
    List (String × List Nat) :=
  d.filter (fun p => p.1 ≠ f)

/-- `HashSet::insert` on the modelled dedup set. -/
def insertHash (hs : List String) (h : String) : List String :=
  if hs.contains h then hs else hs ++ [h]

/-- Append one console line to the trace. -/
def stLog (st : St) (msg : String) : St :=
  { st with trace := st.trace ++ [.log msg] }

/-- Rust `{:#?}` debug formatting of a string: quoted (escapes elided; the
strings the program prints this way are plain). -/
def rustDebug (s : String) : String := "\"" ++ s ++ "\""

/-- Rust `str::parse::<u32>`: optional leading `+`, one or more ASCII
digits, value below `2^32`; anything else fails. -/
def parseU32 (s : String) : Option Nat :=
  let cs := s.toList
  let ds := match cs with
            | '+' :: rest => rest
            | _ => cs
  if ds.isEmpty then none
  else if ds.all Char.isDigit then
    let v := ds.foldl (fun acc c => acc * 10 + (c.toNat - 48)) 0
    if v < 4294967296 then some v else none
  else none

/-- Rust `str::parse::<i32>`: optional sign, one or more ASCII digits,
value within the `i32` range; anything else fails. -/
def parseI32 (s : String) : Option Int :=
  let cs := s.toList
  let signed : Bool × List Char :=
    match cs with
    | '+' :: rest => (false, rest)
    | '-' :: rest => (true, rest)
    | _ => (false, cs)
  let neg := signed.1
  let ds := signed.2
  if ds.isEmpty then none
  else if ds.all Char.isDigit then
    let v : Nat := ds.foldl (fun acc c => acc * 10 + (c.toNat - 48)) 0
    if neg then
      if v ≤ 2147483648 then some (-(v : Int)) else none
    else
      if v ≤ 2147483647 then some (v : Int) else none
  else none

/-- UTF-8 byte length of a string (Rust `String::len`). -/
def utf8Len (s : String) : Nat :=
  (s.toList.map Char.utf8Size).sum

/-- `String::drain(0..n)` made total: remove the chars occupying the first
`n` bytes and return the remainder, or `none` where Rust panics (`n` past
the end of the string or not on a char boundary). -/
def drainBytes : Nat → List Char → Option (List Char)
  | 0, cs => some cs
  | _ + 1, [] => none
  | n + 1, c :: cs =>
    if c.utf8Size ≤ n + 1 then drainBytes (n + 1 - c.utf8Size) cs else none

/-- `cid.drain(0..7)` from `fetch_files`: strip the first 7 bytes (the
`ipfs://` scheme), `none` where the Rust code panics. -/
def drain7 (s : String) : Option String :=
  (drainBytes 7 s.toList).map String.mk

/-- `slice::chunks (m+1)`: split into consecutive chunks of size `m+1`
(last one possibly shorter), fuelled so the recursion is structural (each
step consumes at least one element, so fuel equal to the length never runs
out). -/
def toChunksGo (m : Nat) : Nat → List α → List (List α)
  | _, [] => []
  | 0, _ :: _ => []
  | fuel + 1, x :: xs => (x :: xs.take m) :: toChunksGo m fuel (xs.drop m)

/-- `slice::chunks n` for positive `n` (the program uses `n = 10`). -/
def toChunks (n : Nat) (l : List α) : List (List α) :=
  match n with
  | 0 => [l]
  | m + 1 => toChunksGo m l.length l

/-! ### SHA-256 (`sha2::Sha256`), over byte lists, words as `Nat % 2^32` -/

/-- Truncate to a 32-bit word. -/
def w32 (n : Nat) : Nat := n % 4294967296

/-- 32-bit right rotation. -/
def rotr (n w : Nat) : Nat := w32 (w / 2 ^ n + w % 2 ^ n * 2 ^ (32 - n))

/-- Logical right shift. -/
def shr (n w : Nat) : Nat := w / 2 ^ n

/-- 32-bit complement. -/
def notW (w : Nat) : Nat := Nat.xor w 4294967295

/-- SHA-256 round constants (FIPS 180-4, written in decimal). -/
def shaK : List Nat :=
  [1116352408, 1899447441, 3049323471, 3921009573, 961987163,
   1508970993, 2453635748, 2870763221, 3624381080, 310598401,
   607225278, 1426881987, 1925078388, 2162078206, 2614888103,
   3248222580, 3835390401, 4022224774, 264347078, 604807628,
   770255983, 1249150122, 1555081692, 1996064986, 2554220882,
   2821834349, 2952996808, 3210313671, 3336571891, 3584528711,
   113926993, 338241895, 666307205, 773529912, 1294757372,
   1396182291, 1695183700, 1986661051, 2177026350, 2456956037,
   2730485921, 2820302411, 3259730800, 3345764771, 3516065817,
   3600352804, 4094571909, 275423344, 430227734, 506948616,
   659060556, 883997877, 958139571, 1322822218, 1537002063,
   1747873779, 1955562222, 2024104815, 2227730452, 2361852424,
   2428436474, 2756734187, 3204031479, 3329325298]

/-- SHA-256 initial hash state (FIPS 180-4, written in decimal). -/
def shaH0 : List Nat :=
  [1779033703, 3144134277, 1013904242, 2773480762,
   1359893119, 2600822924, 528734635, 1541459225]

/-- Big-endian 64-bit byte encoding (the padded bit-length field). -/
def be64 (n : Nat) : List Nat :=
  (List.range 8).map (fun i => n / 2 ^ (8 * (7 - i)) % 256)

/-- Big-endian 32-bit byte encoding (digest emission). -/
def be32 (n : Nat) : List Nat :=
  (List.range 4).map (fun i => n / 2 ^ (8 * (3 - i)) % 256)

/-- SHA-256 padding: `0x80`, zeros to 56 mod 64, then the bit length. -/
def shaPad (msg : List Nat) : List Nat :=
  let l := msg.length
  let zeros := (119 - l % 64) % 64
  msg ++ [0x80] ++ List.replicate zeros 0 ++ be64 (8 * l)

/-- Four big-endian bytes as one 32-bit word. -/
def wordOfBytes (bs : List Nat) : Nat :=
  bs.foldl (fun acc b => acc * 256 + b) 0

/-- Message-schedule extension: 16 words grow to 64. -/
def shaSchedule (ws : List Nat) : List Nat :=
  (List.range 48).foldl
    (fun ws _ =>
      let n := ws.length
      let w2 := ws.getD (n - 2) 0
      let w7 := ws.getD (n - 7) 0
      let w15 := ws.getD (n - 15) 0
      let w16 := ws.getD (n - 16) 0
      let s0 := Nat.xor (Nat.xor (rotr 7 w15) (rotr 18 w15)) (shr 3 w15)
      let s1 := Nat.xor (Nat.xor (rotr 17 w2) (rotr 19 w2)) (shr 10 w2)
      ws ++ [w32 (w16 + s0 + w7 + s1)])
    ws

/-- One SHA-256 compression round. -/
def shaRound (st : List Nat) (kw : Nat × Nat) : List Nat :=
  let a := st.getD 0 0
  let b := st.getD 1 0
  let c := st.getD 2 0
  let d := st.getD 3 0
  let e := st.getD 4 0
  let f := st.getD 5 0
  let g := st.getD 6 0
  let h := st.getD 7 0
  let s1 := Nat.xor (Nat.xor (rotr 6 e) (rotr 11 e)) (rotr 25 e)
  let ch := Nat.xor (Nat.land e f) (Nat.land (notW e) g)
  let t1 := w32 (h + s1 + ch + kw.1 + kw.2)
  let s0 := Nat.xor (Nat.xor (rotr 2 a) (rotr 13 a)) (rotr 22 a)
  let maj := Nat.xor (Nat.xor (Nat.land a b) (Nat.land a c)) (Nat.land b c)
  let t2 := w32 (s0 + maj)
  [w32 (t1 + t2), a, b, c, w32 (d + t1), e, f, g]

/-- Compress one 64-byte block into the running hash state. -/
def shaBlock (h : List Nat) (block : List Nat) : List Nat :=
  let ws := shaSchedule ((toChunks 4 block).map wordOfBytes)
  let fin := (shaK.zip ws).foldl shaRound h
  (h.zip fin).map (fun p => w32 (p.1 + p.2))

/-- SHA-256 digest of a byte list, as its 32 digest bytes. -/
def sha256 (msg : List Nat) : List Nat :=
  (((toChunks 64 (shaPad msg)).foldl shaBlock shaH0).map be32).flatten

/-! ### `String::from_utf8_lossy` (maximal-subpart replacement decoding) -/

/-- The replacement character U+FFFD. -/
def repl : Char := Char.ofNat 0xFFFD

/-- Is this byte a UTF-8 continuation byte (`0x80..=0xBF`)? -/
def isCont (b : Nat) : Bool := 0x80 ≤ b ∧ b ≤ 0xBF

/-- Allowed second byte after a three-byte lead (`E0` excludes overlongs,
`ED` excludes surrogates). -/
def cont3ok (lead b : Nat) : Bool :=
  if lead = 0xE0 then 0xA0 ≤ b ∧ b ≤ 0xBF
  else if lead = 0xED then 0x80 ≤ b ∧ b ≤ 0x9F
  else isCont b

/-- Allowed second byte after a four-byte lead (`F0` excludes overlongs,
`F4` caps at U+10FFFF). -/
def cont4ok (lead b : Nat) : Bool :=
  if lead = 0xF0 then 0x90 ≤ b ∧ b ≤ 0xBF
  else if lead = 0xF4 then 0x80 ≤ b ∧ b ≤ 0x8F
  else isCont b

/-- Assemble a scalar from a two-byte sequence. -/
def chr2 (b0 b1 : Nat) : Char := Char.ofNat ((b0 - 0xC0) * 64 + (b1 - 0x80))

/-- Assemble a scalar from a three-byte sequence. -/
def chr3 (b0 b1 b2 : Nat) : Char :=
  Char.ofNat ((b0 - 0xE0) * 4096 + (b1 - 0x80) * 64 + (b2 - 0x80))

/-- Assemble a scalar from a four-byte sequence. -/
def chr4 (b0 b1 b2 b3 : Nat) : Char :=
  Char.ofNat
    ((b0 - 0xF0) * 262144 + (b1 - 0x80) * 4096 + (b2 - 0x80) * 64 + (b3 - 0x80))

/-- Lossy UTF-8 decoding with maximal-subpart replacement, fuelled so the
recursion is structural (each step consumes at least one byte, so fuel equal
to the byte count never runs out). -/
def utf8LossyGo : Nat → List Nat → List Char
  | 0, _ => []
  | _ + 1, [] => []
  | fuel + 1, b :: rest =>
    if b < 0x80 then Char.ofNat b :: utf8LossyGo fuel rest
    else if 0xC2 ≤ b ∧ b ≤ 0xDF then
      match rest with
      | [] => [repl]
      | b1 :: r1 =>
        if isCont b1 then chr2 b b1 :: utf8LossyGo fuel r1
        else repl :: utf8LossyGo fuel rest
    else if 0xE0 ≤ b ∧ b ≤ 0xEF then
      match rest with
      | [] => [repl]
      | b1 :: r1 =>
        if cont3ok b b1 then
          match r1 with
          | [] => [repl]
          | b2 :: r2 =>
            if isCont b2 then chr3 b b1 b2 :: utf8LossyGo fuel r2
            else repl :: utf8LossyGo fuel r1
        else repl :: utf8LossyGo fuel rest
    else if 0xF0 ≤ b ∧ b ≤ 0xF4 then
      match rest with
      | [] => [repl]
      | b1 :: r1 =>
        if cont4ok b b1 then
          match r1 with
          | [] => [repl]
          | b2 :: r2 =>
            if isCont b2 then
              match r2 with
              | [] => [repl]
              | b3 :: r3 =>
                if isCont b3 then chr4 b b1 b2 b3 :: utf8LossyGo fuel r3
                else repl :: utf8LossyGo fuel r2
            else repl :: utf8LossyGo fuel r1
        else repl :: utf8LossyGo fuel rest
    else repl :: utf8LossyGo fuel rest

/-- `String::from_utf8_lossy` over modelled bytes. -/
def utf8Lossy (bs : List Nat) : String :=
  String.mk (utf8LossyGo bs.length bs)

/-- `calculate_cid`: SHA-256 the bytes, then lossily decode the raw digest
bytes into a `String` (the Rust code's `String::from_utf8_lossy`). -/
def calculate_cid (t : List Nat) : String :=
  utf8Lossy (sha256 t)

/-! ### `download_binary`: retry with exponential backoff -/

/-- `ExponentialBackoff::from_millis base` taken `n` times: the delay
before retry `k+1` is `base^(k+1)` milliseconds. -/
def expDelays (base n : Nat) : List Nat :=
  (List.range n).map (fun k => base ^ (k + 1))

/-- `tokio_retry::Retry::spawn`: run attempt `i`; on failure consume one
delay from the backoff schedule and retry, or surface the error once the
schedule is exhausted.  Returns the result together with the number of
attempts performed. -/
def retryGo (attempt : Nat → Except Err (List Nat)) :
    Nat → List Nat → Except Err (List Nat) × Nat
  | i, delays =>
    match attempt i with
    | .ok b => (.ok b, i + 1)
    | .error e =>
      match delays with
      | [] => (.error e, i + 1)
      | _ :: ds => retryGo attempt (i + 1) ds

/-- `download_binary`: GET with the 3-entry jittered exponential-backoff
schedule `from_millis(10).map(jitter).take(3)`; `jit` is the random jitter
applied to each delay, `attempt i` the outcome of the `i`-th GET. -/
def download_binary (jit : Nat → Nat) (attempt : Nat → Except Err (List Nat)) :
    Except Err (List Nat) × Nat :=
  retryGo attempt 0 ((expDelays 10 3).map jit)

/-! ### `get_high_res_cover_path` -/

/-- `get_high_res_cover_path`: from the asset details' onchain metadata,
extract `files[0].src` as a string; alongside it, the "Found high-res
cover" line the function prints whenever metadata is present. -/
def get_high_res_cover_path (d : AssetDetails) : Option String × List Event :=
  match d.onchain_metadata with
  | none => (none, [])
  | some j =>
    let path := (((j.get "files").idx 0).get "src").asStr
    (path, [.log ("Found high-res cover for " ++
      rustDebug (((j.get "name").asStr).getD "<Unknown>"))])

/-! ### `fetch_files` -/

/-- Network/filesystem oracle for one run: Blockfrost asset details, the
outcome and jitter of each gateway GET attempt per URL, and whether each
`fs::write`/`fs::rename` succeeds. -/
structure Env where
  assetDetails : String → Except Err AssetDetails
  attempt : String → Nat → Except Err (List Nat)
  jit : Nat → Nat
  writeOk : String → List Nat → Bool
  renameOk : String → String → Bool

/-- The loop body of `fetch_files`, one asset at a time.  `found` is
`found_files`; the loop breaks (returning the state and count) once
`found_files >= files_needed`, errors propagate with the state they
occurred in, and each branch mirrors the source's quantity / disk-existence
/ cover-resolution / dedup tests in order. -/
def fetchGo (env : Env) (cfg : Config) (files_needed : Nat) :
    St → Nat → List AssetPolicy → St × Except Err Nat
  | st, found, [] => (st, .ok found)
  | st, found, a :: rest =>
    let temp_filename := cfg.work_dir ++ "/" ++ a.asset ++ ".tmp"
    let filename := cfg.work_dir ++ "/" ++ a.asset
    match parseI32 a.quantity with
    | none => (st, .error .parse)
    | some qty =>
      if files_needed ≤ found then (st, .ok found)
      else if 0 < qty then
        if diskHas st.disk filename then
          let st := stLog st ("Asset " ++ rustDebug a.asset ++ " already downloaded")
          let file_data := diskGet st.disk filename
          let st :=
            { st with
              trace := st.trace ++ [.fsRead filename],
              hashes := insertHash st.hashes (calculate_cid file_data) }
          fetchGo env cfg files_needed st (found + 1) rest
        else
          let st := { st with trace := st.trace ++ [.apiAssetDetails a.asset] }
          match env.assetDetails a.asset with
          | .error e => (st, .error e)
          | .ok asset_details =>
            let pe := get_high_res_cover_path asset_details
            let st := { st with trace := st.trace ++ pe.2 }
            match pe.1 with
            | none =>
              fetchGo env cfg files_needed
                (stLog st ("Asset without high-res cover image: " ++ a.asset))
                found rest
            | some path =>
              match drain7 path with
              | none => (st, .error .panic)
              | some cid =>
                let url := cfg.ipfs_gateway ++ cid
                let dl := download_binary env.jit (env.attempt url)
                let st :=
                  { st with trace := st.trace ++ List.replicate dl.2 (.httpGet url) }
                match dl.1 with
                | .error e => (st, .error e)
                | .ok asset_data =>
                  if ¬ st.hashes.contains cid then
                    if env.writeOk temp_filename asset_data then
                      let st :=
                        { st with
                          disk := st.disk ++ [(temp_filename, asset_data)],
                          trace := st.trace ++ [.fsWriteTmp temp_filename asset_data] }
                      if env.renameOk temp_filename filename then
                        let st :=
                          { st with
                            disk := diskRemove st.disk temp_filename ++
                                    [(filename, asset_data)],
                            trace := st.trace ++ [.fsRename temp_filename filename],
                            hashes := insertHash st.hashes cid }
                        fetchGo env cfg files_needed st (found + 1) rest
                      else (st, .error .io)
                    else (st, .error .io)
                  else
                    fetchGo env cfg files_needed
                      (stLog st ("High-res cover " ++ rustDebug path ++
                        " for asset " ++ rustDebug a.asset ++
                        " is the same as existing one"))
                      found rest
      else fetchGo env cfg files_needed st found rest

/-- `fetch_files`: process a chunk of asset policies, downloading up to
`files_needed` files. -/
def fetch_files (env : Env) (cfg : Config) (st : St)
    (assets : List AssetPolicy) (files_needed : Nat) : St × Except Err Nat :=
  fetchGo env cfg files_needed st 0 assets

/-! ### `collections` and `main` -/

/-- The book.io collections endpoint. -/
def BOOK_IO_COLLECTIONS_URL : String := "https://api.book.io/api/v0/collections"

/-- Oracle for `main`: configuration loading, the directory-service
response, asset enumeration, and the per-asset `Env`. -/
structure MainEnv where
  buildApi : Except Err Unit
  collectionsStatusOk : Bool
  collectionsBody : Except Err CollectionsResponse
  assetsPolicy : String → Except Err (List AssetPolicy)
  env : Env

/-- The pure outcome of `collections`: on a success status, the parsed
body's collection ids (a parse failure is fatal); on a non-success status,
the empty set. -/
def collectionsResult (m : MainEnv) : Except Err (List String) :=
  if m.collectionsStatusOk then
    match m.collectionsBody with
    | .error e => .error e
    | .ok body => .ok (body.data.map (fun de => de.collection_id))
  else .ok []

/-- `collections`: one GET against the directory service, then
`collectionsResult`. -/
def collections (m : MainEnv) (st : St) : St × Except Err (List String) :=
  ({ st with trace := st.trace ++ [.httpGet BOOK_IO_COLLECTIONS_URL] },
   collectionsResult m)

/-- `main`'s chunk loop: `file_count += fetch_files(...)` then break once
`file_count >= max_files`. -/
def mainLoop (m : MainEnv) (cfg : Config) :
    St → Nat → Nat → List (List AssetPolicy) → St × Except Err Nat
  | st, file_count, _, [] => (st, .ok file_count)
  | st, file_count, max_files, chunk :: chunks =>
    match fetch_files m.env cfg st chunk (max_files - file_count) with
    | (st, .error e) => (st, .error e)
    | (st, .ok n) =>
      let file_count := file_count + n
      if max_files ≤ file_count then (st, .ok file_count)
      else mainLoop m cfg st file_count max_files chunks

/-- The usage text printed when no arguments are given. -/
def usageLines : List Event :=
  [.log "Missing policy id",
   .log "Usage: \tbook_cli <policy_id> <work_dir>? <total_files>?",
   .log "\tpolicy_id (mandatory): policy id of the asset",
   .log "\twork_dir (optional): directory where to store the files (default: current directory)",
   .log "\ttotal_files (optional): maximum number of files to download (default: 10)",
   .log "\tipfs http gateway (optional): url of the ipfs gateway (default: https://ipfs.io/ipfs/)"]

/-- `main`: parse arguments (with defaults), build the API, validate the
policy id against the directory service, then run the chunked fetch loop.
`args` is the full argv (program name first); `disk0` the initial
filesystem state. -/
def main (m : MainEnv) (disk0 : List (String × List Nat)) (args : List String) :
    St × Except Err Unit :=
  let chunk_size := 10
  let st : St := { disk := disk0, hashes := [], trace := [] }
  if args.length == 1 then
    ({ st with trace := st.trace ++ usageLines }, .ok ())
  else
    match args.get? 1 with
    | none => (st, .error .panic)
    | some policy_id =>
      let work_dir := (args.get? 2).getD "."
      let max_files := ((args.get? 3).bind parseU32).getD 10
      let gateway := (args.get? 4).getD "https://ipfs.io/ipfs/"
      match m.buildApi with
      | .error e => (st, .error e)
      | .ok _ =>
        let cfg : Config := { ipfs_gateway := gateway, work_dir := work_dir }
        let pr := collections m st
        match pr.2 with
        | .error e => (pr.1, .error e)
        | .ok collection_ids =>
          if collection_ids.contains policy_id then
            let st := { pr.1 with trace := pr.1.trace ++ [.apiAssetsPolicy policy_id] }
            match m.assetsPolicy policy_id with
            | .error e => (st, .error e)
            | .ok assets =>
              let r := mainLoop m cfg st 0 max_files (toChunks chunk_size assets)
              (r.1, r.2.map (fun _ => ()))
          else
            (stLog pr.1 ("invalid policy id " ++ rustDebug policy_id), .ok ())

/-! ### Event classifiers and concrete oracles used by witnesses -/

/-- Is an event a rename to a final file name (the step that makes a
downloaded file appear on disk)? -/
def isRename : Event → Bool
  | .fsRename _ _ => true
  | _ => false

/-- Is an event a gateway/HTTP GET attempt? -/
def isGet : Event → Bool
  | .httpGet _ => true
  | _ => false

/-- A work-dir/gateway configuration for witnesses. -/
def wCfg : Config where
  ipfs_gateway := "gw/"
  work_dir := "."

/-- A do-nothing fetch oracle for witnesses. -/
def wEnv : Env where
  assetDetails := fun _ => .error .api
  attempt := fun _ _ => .error .http
  jit := id
  writeOk := fun _ _ => false
  renameOk := fun _ _ => false

/-- A main oracle whose directory service answers with a non-success
status, so the known-collections set is empty. -/
def wMainEnv : MainEnv where
  buildApi := .ok ()
  collectionsStatusOk := false
  collectionsBody := .error .parse
  assetsPolicy := fun _ => .error .api
  env := wEnv

/-- An attempt oracle that fails three times, then succeeds. -/
def c6attempt : Nat → Except Err (List Nat) :=
  fun i => if i < 3 then .error .http else .ok [1]

/-- Sample metadata with a `files[0].src` string. -/
def c7json : Json :=
  .obj [("name", .str "Book"),
        ("files", .arr [.obj [("src", .str "ipfs://X")]])]

/-- Metadata whose cover path is the 3-character, 7-byte string `"a一一"`. -/
def c9json : Json :=
  .obj [("name", .str "S"),
        ("files", .arr [.obj [("src", .str "a一一")]])]

/-- Oracle resolving every asset to the short multi-byte cover path. -/
def c9Env : Env where
  assetDetails := fun _ => .ok ⟨some c9json⟩
  attempt := fun _ _ => .ok [7]
  jit := id
  writeOk := fun _ _ => true
  renameOk := fun _ _ => true

/-- Metadata whose cover path is the 3-byte string `"abc"`. -/
def c9wjson : Json :=
  .obj [("name", .str "S"),
        ("files", .arr [.obj [("src", .str "abc")]])]

/-- Oracle resolving every asset to the 3-byte cover path. -/
def c9wEnv : Env where
  assetDetails := fun _ => .ok ⟨some c9wjson⟩
  attempt := fun _ _ => .ok [7]
  jit := id
  writeOk := fun _ _ => true
  renameOk := fun _ _ => true

/-- Metadata resolving to the cover path `ipfs://QQQQ`. -/
def c4json : Json :=
  .obj [("name", .str "Book B"),
        ("files", .arr [.obj [("src", .str "ipfs://QQQQ")]])]

/-- Oracle resolving every asset to `ipfs://QQQQ`, with the gateway
serving bytes `[5]`. -/
def c4Env : Env where
  assetDetails := fun _ => .ok ⟨some c4json⟩
  attempt := fun _ _ => .ok [5]
  jit := id
  writeOk := fun _ _ => true
  renameOk := fun _ _ => true

/-- A run state whose dedup set already contains the CID `QQQQ`. -/
def c4St : St where
  disk := []
  hashes := ["QQQQ"]
  trace := []

/-- Metadata for asset B resolving to a 46-character CIDv0-style content
address. -/
def c2jsonB : Json :=
  .obj [("name", .str "Book B"),
        ("files",
         .arr [.obj [("src",
           .str "ipfs://QmbWqxBEKC3P8tqsKc98xmWNzrzDtRLMiMPL8wBuTGsMnR")]])]

/-- Oracle for the hash-mismatch scenario: asset B resolves to the CIDv0
address and the gateway serves the byte `[97]` for it — the same content
that already sits on disk under asset A's name. -/
def c2Env : Env where
  assetDetails := fun a =>
    if a = "B" then .ok ⟨some c2jsonB⟩ else .error .api
  attempt := fun _ _ => .ok [97]
  jit := id
  writeOk := fun _ _ => true
  renameOk := fun _ _ => true

/-- A run state where asset A's file already exists on disk with content
`[97]`. -/
def c2St : St where
  disk := [("./A", [97])]
  hashes := []
  trace := []

/-- Metadata for asset A resolving to `ipfs://QmSAME`. -/
def c3jsonA : Json :=
  .obj [("name", .str "Book A"),
        ("files", .arr [.obj [("src", .str "ipfs://QmSAME")]])]

/-- Metadata for asset C resolving to the same `ipfs://QmSAME`. -/
def c3jsonC : Json :=
  .obj [("name", .str "Book C"),
        ("files", .arr [.obj [("src", .str "ipfs://QmSAME")]])]

/-- Oracle where assets A and C resolve to the same CID. -/
def c3Env : Env where
  assetDetails := fun a =>
    if a = "A" then .ok ⟨some c3jsonA⟩
    else if a = "C" then .ok ⟨some c3jsonC⟩
    else .error .api
  attempt := fun _ _ => .ok [97]
  jit := id
  writeOk := fun _ _ => true
  renameOk := fun _ _ => true

/-! ## Helper lemmas -/

theorem diskHas_append (d e : List (String × List Nat)) (f : String) :
    diskHas (d ++ e) f = (diskHas d f || diskHas e f) := by
  simp [diskHas, List.any_append]

theorem diskHas_remove_false (d : List (String × List Nat)) (t f : String)
    (h : diskHas d f = false) : diskHas (diskRemove d t) f = false := by
  simp only [diskHas, List.any_eq_false, decide_eq_true_eq] at h ⊢
  intro p hp
  exact h p (List.mem_of_mem_filter hp)

theorem insertHash_contains_self (hs : List String) (h : String) :
    (insertHash hs h).contains h = true := by
  unfold insertHash
  by_cases hc : hs.contains h = true
  · rw [if_pos hc]; exact hc
  · rw [if_neg hc]; simp

theorem retryGo_snd_le (attempt : Nat → Except Err (List Nat)) :
    ∀ (delays : List Nat) (i : Nat),
      (retryGo attempt i delays).2 ≤ i + delays.length + 1 := by
  intro delays
  induction delays with
  | nil =>
    intro i
    rw [retryGo]
    cases h : attempt i <;> simp [h]
  | cons d ds ih =>
    intro i
    rw [retryGo]
    cases h : attempt i with
    | error e =>
      simp only [h, List.length_cons]
      have := ih (i + 1)
      omega
    | ok b => simp [h]

theorem retryGo_snd_pos (attempt : Nat → Except Err (List Nat)) :
    ∀ (delays : List Nat) (i : Nat), i + 1 ≤ (retryGo attempt i delays).2 := by
  intro delays
  induction delays with
  | nil =>
    intro i
    rw [retryGo]
    cases h : attempt i <;> simp [h]
  | cons d ds ih =>
    intro i
    rw [retryGo]
    cases h : attempt i with
    | error e =>
      simp only [h]
      have := ih (i + 1)
      omega
    | ok b => simp [h]

theorem drainBytes_none (cs : List Char) :
    ∀ n : Nat, (cs.map Char.utf8Size).sum < n → drainBytes n cs = none := by
  induction cs with
  | nil =>
    intro n h
    match n, h with
    | m + 1, _ => rfl
  | cons c cs ih =>
    intro n h
    simp only [List.map_cons, List.sum_cons] at h
    have hsz := Char.utf8Size_pos c
    match n, h with
    | m + 1, h =>
      simp only [drainBytes]
      by_cases hle : c.utf8Size ≤ m + 1
      · rw [if_pos hle]
        exact ih _ (by omega)
      · rw [if_neg hle]

theorem drain7_none_of_short (p : String) (h : utf8Len p < 7) :
    drain7 p = none := by
  unfold drain7
  rw [drainBytes_none p.toList 7 (by simpa [utf8Len] using h)]
  rfl

theorem diskRemove_append_self (d : List (String × List Nat))
    (t : String) (x : List Nat) :
    diskRemove (d ++ [(t, x)]) t = diskRemove d t := by
  simp [diskRemove, List.filter_append]

theorem diskHas_singleton_false (g f : String) (x : List Nat)
    (h : g ≠ f) : diskHas [(g, x)] f = false := by
  simp [diskHas, h]

theorem countP_isRename_cover (d : AssetDetails) :
    ((get_high_res_cover_path d).2).countP isRename = 0 := by
  cases h : d.onchain_metadata <;>
    simp [get_high_res_cover_path, h, isRename]

theorem countP_isRename_replicate (n : Nat) (u : String) :
    (List.replicate n (Event.httpGet u)).countP isRename = 0 := by
  induction n with
  | zero => rfl
  | succ k ih => simp [List.replicate_succ, List.countP_cons, isRename, ih]

/-- One write step of the loop: an asset with positive quantity, not on
disk, a fresh CID and successful download/write/rename extends disk,
dedup set and trace exactly as the source's write-then-rename branch, and
counts the file. -/
theorem fetchGo_write_step (env : Env) (cfg : Config) (needed : Nat)
    (st : St) (found : Nat) (a : AssetPolicy) (rest : List AssetPolicy)
    (q : Int) (d : AssetDetails) (p cid : String) (data : List Nat)
    (hq : parseI32 a.quantity = some q) (hqp : 0 < q)
    (hbr : ¬ needed ≤ found)
    (hdisk : diskHas st.disk (cfg.work_dir ++ "/" ++ a.asset) = false)
    (hd : env.assetDetails a.asset = .ok d)
    (hp : (get_high_res_cover_path d).1 = some p)
    (hcid : drain7 p = some cid)
    (hfresh : st.hashes.contains cid = false)
    (hdl : (download_binary env.jit (env.attempt (cfg.ipfs_gateway ++ cid))).1 =
      .ok data)
    (hw : env.writeOk (cfg.work_dir ++ "/" ++ a.asset ++ ".tmp") data = true)
    (hr : env.renameOk (cfg.work_dir ++ "/" ++ a.asset ++ ".tmp")
      (cfg.work_dir ++ "/" ++ a.asset) = true) :
    fetchGo env cfg needed st found (a :: rest) =
      fetchGo env cfg needed
        { disk := diskRemove
              (st.disk ++ [(cfg.work_dir ++ "/" ++ a.asset ++ ".tmp", data)])
              (cfg.work_dir ++ "/" ++ a.asset ++ ".tmp") ++
            [(cfg.work_dir ++ "/" ++ a.asset, data)],
          hashes := insertHash st.hashes cid,
          trace := st.trace ++ [.apiAssetDetails a.asset] ++
            (get_high_res_cover_path d).2 ++
            List.replicate
              (download_binary env.jit (env.attempt (cfg.ipfs_gateway ++ cid))).2
              (.httpGet (cfg.ipfs_gateway ++ cid)) ++
            [.fsWriteTmp (cfg.work_dir ++ "/" ++ a.asset ++ ".tmp") data,
             .fsRename (cfg.work_dir ++ "/" ++ a.asset ++ ".tmp")
               (cfg.work_dir ++ "/" ++ a.asset)] }
        (found + 1) rest := by
  rw [fetchGo]
  dsimp only
  rw [hq]
  dsimp only
  rw [if_neg hbr, if_pos hqp, hdisk]
  rw [if_neg (by simp : ¬ (false = true))]
  rw [hd]
  dsimp only
  rw [hp]
  dsimp only
  rw [hcid]
  dsimp only
  rw [hdl]
  dsimp only
  rw [hfresh]
  rw [if_pos (by simp : ¬ (false = true))]
  rw [hw]
  rw [if_pos rfl]
  rw [hr]
  rw [if_pos rfl]
  simp only [List.append_assoc, List.cons_append, List.nil_append,
    List.singleton_append]

/-- One duplicate-skip step of the loop: an asset with positive quantity,
not on disk, whose CID is already in the dedup set still downloads the
bytes, then only logs the notice — disk, dedup set and count are
untouched. -/
theorem fetchGo_dup_step (env : Env) (cfg : Config) (needed : Nat)
    (st : St) (found : Nat) (a : AssetPolicy) (rest : List AssetPolicy)
    (q : Int) (d : AssetDetails) (p cid : String) (data : List Nat)
    (hq : parseI32 a.quantity = some q) (hqp : 0 < q)
    (hbr : ¬ needed ≤ found)
    (hdisk : diskHas st.disk (cfg.work_dir ++ "/" ++ a.asset) = false)
    (hd : env.assetDetails a.asset = .ok d)
    (hp : (get_high_res_cover_path d).1 = some p)
    (hcid : drain7 p = some cid)
    (hdup : st.hashes.contains cid = true)
    (hdl : (download_binary env.jit (env.attempt (cfg.ipfs_gateway ++ cid))).1 =
      .ok data) :
    fetchGo env cfg needed st found (a :: rest) =
      fetchGo env cfg needed
        { st with trace := (st.trace ++ [.apiAssetDetails a.asset] ++
            (get_high_res_cover_path d).2 ++
            List.replicate
              (download_binary env.jit (env.attempt (cfg.ipfs_gateway ++ cid))).2
              (.httpGet (cfg.ipfs_gateway ++ cid)) ++
            [.log ("High-res cover " ++ rustDebug p ++ " for asset " ++
              rustDebug a.asset ++ " is the same as existing one")]) }
        found rest := by
  rw [fetchGo]
  dsimp only
  rw [hq]
  dsimp only
  rw [if_neg hbr, if_pos hqp, hdisk]
  rw [if_neg (by simp : ¬ (false = true))]
  rw [hd]
  dsimp only
  rw [hp]
  dsimp only
  rw [hcid]
  dsimp only
  rw [hdl]
  dsimp only
  rw [hdup]
  rw [if_neg (by simp : ¬ (¬ (true = true)))]
  simp only [stLog, List.append_assoc, List.cons_append, List.nil_append,
    List.singleton_append]

theorem rename_not_in_cover (d : AssetDetails) (s dd : String) :
    Event.fsRename s dd ∉ (get_high_res_cover_path d).2 := by
  cases h : d.onchain_metadata <;> simp [get_high_res_cover_path, h]

theorem not_rename_log (s dd m : String) :
    Event.fsRename s dd ∉ [Event.log m] := by simp

theorem not_rename_read (s dd m : String) :
    Event.fsRename s dd ∉ [Event.fsRead m] := by simp

theorem not_rename_api (s dd m : String) :
    Event.fsRename s dd ∉ [Event.apiAssetDetails m] := by simp

theorem not_rename_rep (s dd u : String) (n : Nat) :
    Event.fsRename s dd ∉ List.replicate n (Event.httpGet u) := by
  simp [List.mem_replicate]

theorem not_rename_wtmp (s dd t : String) (x : List Nat) :
    Event.fsRename s dd ∉ [Event.fsWriteTmp t x] := by simp

/-- Disk provenance: every file present after a `fetch_files` loop was
either present before, or holds exactly the complete byte payload of a
successful `download_binary` result (never a partial write). -/
theorem fetchGo_disk_provenance (env : Env) (cfg : Config) (needed : Nat) :
    ∀ (assets : List AssetPolicy) (st : St) (found : Nat)
      (f : String) (c : List Nat),
      (f, c) ∈ (fetchGo env cfg needed st found assets).1.disk →
      (f, c) ∈ st.disk ∨
      ∃ url, (download_binary env.jit (env.attempt url)).1 = .ok c := by
  intro assets
  induction assets with
  | nil =>
    intro st found f c h
    rw [fetchGo] at h
    exact Or.inl h
  | cons a rest ih =>
    intro st found f c h
    rw [fetchGo] at h
    dsimp only at h
    split at h
    · exact Or.inl h
    · split at h
      · exact Or.inl h
      · split at h
        · split at h
          · rcases ih _ _ _ _ h with h1 | h2
            · exact Or.inl h1
            · exact Or.inr h2
          · split at h
            · exact Or.inl h
            · split at h
              · rcases ih _ _ _ _ h with h1 | h2
                · exact Or.inl h1
                · exact Or.inr h2
              · split at h
                · exact Or.inl h
                · split at h
                  · exact Or.inl h
                  · split at h
                    · split at h
                      · split at h
                        · rcases ih _ _ _ _ h with hmem | hdl2
                          · rcases List.mem_append.mp hmem with h1 | h2
                            · rcases List.mem_append.mp
                                (List.mem_of_mem_filter h1) with h4 | h5
                              · exact Or.inl h4
                              · simp only [List.mem_singleton,
                                  Prod.mk.injEq] at h5
                                obtain ⟨-, hc⟩ := h5
                                subst hc
                                exact Or.inr ⟨_, by assumption⟩
                            · simp only [List.mem_singleton,
                                Prod.mk.injEq] at h2
                              obtain ⟨-, hc⟩ := h2
                              subst hc
                              exact Or.inr ⟨_, by assumption⟩
                          · exact Or.inr hdl2
                        · rcases List.mem_append.mp h with h1 | h2
                          · exact Or.inl h1
                          · simp only [List.mem_singleton,
                              Prod.mk.injEq] at h2
                            obtain ⟨-, hc⟩ := h2
                            subst hc
                            exact Or.inr ⟨_, by assumption⟩
                      · exact Or.inl h
                    · rcases ih _ _ _ _ h with h1 | h2
                      · exact Or.inl h1
                      · exact Or.inr h2
        · rcases ih _ _ _ _ h with h1 | h2
          · exact Or.inl h1
          · exact Or.inr h2

/-- Renames come from the temp-file pattern: any rename recorded by a
`fetch_files` loop moves `name ++ ".tmp"` to `name`. -/
theorem fetchGo_rename_prop (env : Env) (cfg : Config) (needed : Nat) :
    ∀ (assets : List AssetPolicy) (st : St) (found : Nat) (s dd : String),
      Event.fsRename s dd ∈ (fetchGo env cfg needed st found assets).1.trace →
      Event.fsRename s dd ∈ st.trace ∨ s = dd ++ ".tmp" := by
  intro assets
  induction assets with
  | nil =>
    intro st found s dd h
    rw [fetchGo] at h
    exact Or.inl h
  | cons a rest ih =>
    intro st found s dd h
    rw [fetchGo] at h
    dsimp only at h
    split at h
    · exact Or.inl h
    · split at h
      · exact Or.inl h
      · split at h
        · split at h
          · rcases ih _ _ _ _ h with h1 | h2
            · rcases List.mem_append.mp h1 with h3 | h4
              · rcases List.mem_append.mp h3 with h5 | h6
                · exact Or.inl h5
                · exact absurd h6 (not_rename_log _ _ _)
              · exact absurd h4 (not_rename_read _ _ _)
            · exact Or.inr h2
          · split at h
            · rcases List.mem_append.mp h with h1 | h2
              · exact Or.inl h1
              · exact absurd h2 (not_rename_api _ _ _)
            · split at h
              · rcases ih _ _ _ _ h with h1 | h2
                · rcases List.mem_append.mp h1 with h3 | h4
                  · rcases List.mem_append.mp h3 with h5 | h6
                    · rcases List.mem_append.mp h5 with h7 | h8
                      · exact Or.inl h7
                      · exact absurd h8 (not_rename_api _ _ _)
                    · exact absurd h6 (rename_not_in_cover _ _ _)
                  · exact absurd h4 (not_rename_log _ _ _)
                · exact Or.inr h2
              · split at h
                · rcases List.mem_append.mp h with h1 | h2
                  · rcases List.mem_append.mp h1 with h3 | h4
                    · exact Or.inl h3
                    · exact absurd h4 (not_rename_api _ _ _)
                  · exact absurd h2 (rename_not_in_cover _ _ _)
                · split at h
                  · rcases List.mem_append.mp h with h1 | h2
                    · rcases List.mem_append.mp h1 with h3 | h4
                      · rcases List.mem_append.mp h3 with h5 | h6
                        · exact Or.inl h5
                        · exact absurd h6 (not_rename_api _ _ _)
                      · exact absurd h4 (rename_not_in_cover _ _ _)
                    · exact absurd h2 (not_rename_rep _ _ _ _)
                  · split at h
                    · split at h
                      · split at h
                        · rcases ih _ _ _ _ h with h1 | h2
                          · rcases List.mem_append.mp h1 with h3 | h4
                            · rcases List.mem_append.mp h3 with h5 | h6
                              · rcases List.mem_append.mp h5 with h7 | h8
                                · rcases List.mem_append.mp h7 with h9 | h10
                                  · rcases List.mem_append.mp h9 with h11 | h12
                                    · exact Or.inl h11
                                    · exact absurd h12 (not_rename_api _ _ _)
                                  · exact absurd h10 (rename_not_in_cover _ _ _)
                                · exact absurd h8 (not_rename_rep _ _ _ _)
                              · exact absurd h6 (not_rename_wtmp _ _ _ _)
                            · have h5 := List.mem_singleton.mp h4
                              injection h5 with hs hdd
                              subst hs
                              subst hdd
                              exact Or.inr rfl
                          · exact Or.inr h2
                        · rcases List.mem_append.mp h with h1 | h2
                          · rcases List.mem_append.mp h1 with h3 | h4
                            · rcases List.mem_append.mp h3 with h5 | h6
                              · rcases List.mem_append.mp h5 with h7 | h8
                                · exact Or.inl h7
                                · exact absurd h8 (not_rename_api _ _ _)
                              · exact absurd h6 (rename_not_in_cover _ _ _)
                            · exact absurd h4 (not_rename_rep _ _ _ _)
                          · exact absurd h2 (not_rename_wtmp _ _ _ _)
                      · rcases List.mem_append.mp h with h1 | h2
                        · rcases List.mem_append.mp h1 with h3 | h4
                          · rcases List.mem_append.mp h3 with h5 | h6
                            · exact Or.inl h5
                            · exact absurd h6 (not_rename_api _ _ _)
                          · exact absurd h4 (rename_not_in_cover _ _ _)
                        · exact absurd h2 (not_rename_rep _ _ _ _)
                    · rcases ih _ _ _ _ h with h1 | h2
                      · rcases List.mem_append.mp h1 with h3 | h4
                        · rcases List.mem_append.mp h3 with h5 | h6
                          · rcases List.mem_append.mp h5 with h7 | h8
                            · rcases List.mem_append.mp h7 with h9 | h10
                              · exact Or.inl h9
                              · exact absurd h10 (not_rename_api _ _ _)
                            · exact absurd h8 (rename_not_in_cover _ _ _)
                          · exact absurd h6 (not_rename_rep _ _ _ _)
                        · exact absurd h4 (not_rename_log _ _ _)
                      · exact Or.inr h2
        · rcases ih _ _ _ _ h with h1 | h2
          · exact Or.inl h1
          · exact Or.inr h2

theorem fetchGo_le (env : Env) (cfg : Config) (needed : Nat) :
    ∀ (assets : List AssetPolicy) (st : St) (found : Nat) (st' : St) (n : Nat),
      found ≤ needed →
      fetchGo env cfg needed st found assets = (st', .ok n) → n ≤ needed := by
  intro assets
  induction assets with
  | nil =>
    intro st found st' n hle h
    rw [fetchGo] at h
    rw [Prod.ext_iff] at h
    obtain ⟨-, h2⟩ := h
    injection h2 with h2
    omega
  | cons a rest ih =>
    intro st found st' n hle h
    rw [fetchGo] at h
    dsimp only at h
    split at h
    · rw [Prod.ext_iff] at h
      obtain ⟨-, h2⟩ := h
      exact absurd h2 (by simp)
    · split at h
      · rw [Prod.ext_iff] at h
        obtain ⟨-, h2⟩ := h
        injection h2 with h2
        omega
      · split at h
        · split at h
          · exact ih _ _ _ _ (by omega) h
          · split at h
            · rw [Prod.ext_iff] at h
              obtain ⟨-, h2⟩ := h
              exact absurd h2 (by simp)
            · split at h
              · exact ih _ _ _ _ hle h
              · split at h
                · rw [Prod.ext_iff] at h
                  obtain ⟨-, h2⟩ := h
                  exact absurd h2 (by simp)
                · split at h
                  · rw [Prod.ext_iff] at h
                    obtain ⟨-, h2⟩ := h
                    exact absurd h2 (by simp)
                  · split at h
                    · split at h
                      · split at h
                        · exact ih _ _ _ _ (by omega) h
                        · rw [Prod.ext_iff] at h
                          obtain ⟨-, h2⟩ := h
                          exact absurd h2 (by simp)
                      · rw [Prod.ext_iff] at h
                        obtain ⟨-, h2⟩ := h
                        exact absurd h2 (by simp)
                    · exact ih _ _ _ _ hle h
        · exact ih _ _ _ _ hle h

theorem fetch_files_le (env : Env) (cfg : Config) (st : St)
    (assets : List AssetPolicy) (needed : Nat) (st' : St) (n : Nat)
    (h : fetch_files env cfg st assets needed = (st', .ok n)) : n ≤ needed :=
  fetchGo_le env cfg needed assets st 0 st' n (Nat.zero_le needed) h

theorem mainLoop_le (m : MainEnv) (cfg : Config) :
    ∀ (chunks : List (List AssetPolicy)) (st : St) (count max_files : Nat)
      (st' : St) (n : Nat),
      count ≤ max_files →
      mainLoop m cfg st count max_files chunks = (st', .ok n) → n ≤ max_files := by
  intro chunks
  induction chunks with
  | nil =>
    intro st count mx st' n hle h
    rw [mainLoop] at h
    rw [Prod.ext_iff] at h
    obtain ⟨-, h2⟩ := h
    injection h2 with h2
    omega
  | cons c cs ih =>
    intro st count mx st' n hle h
    rw [mainLoop] at h
    split at h
    · rw [Prod.ext_iff] at h
      obtain ⟨-, h2⟩ := h
      exact absurd h2 (by simp)
    · rename_i st1 k heq
      have hk : k ≤ mx - count := fetch_files_le m.env cfg st c (mx - count) st1 k heq
      dsimp only at h
      split at h
      · rw [Prod.ext_iff] at h
        obtain ⟨-, h2⟩ := h
        injection h2 with h2
        omega
      · exact ih _ _ _ _ _ (by omega) h

/-! ## Claims -/

/-- Claim C1: the number of files counted toward the budget (newly written
plus already-present counted files) never exceeds the caller-supplied
`max_files`: any successful run of `main`'s chunk loop returns a count
bounded by `max_files` (each `fetch_files` call returns at most the
remaining budget `max_files - file_count`); and chunk iteration stops as
soon as the budget is exhausted — once a chunk brings the running total to
`max_files` or beyond, the remaining chunks are not processed at all. -/
theorem C1_budget (m : MainEnv) (cfg : Config) :
    (∀ (chunks : List (List AssetPolicy)) (st : St) (count max_files : Nat)
       (st' : St) (n : Nat),
       count ≤ max_files →
       mainLoop m cfg st count max_files chunks = (st', .ok n) →
       n ≤ max_files) ∧
    (∀ (st : St) (count max_files : Nat) (chunk : List AssetPolicy)
       (chunks : List (List AssetPolicy)) (st1 : St) (k : Nat),
       fetch_files m.env cfg st chunk (max_files - count) = (st1, .ok k) →
       max_files ≤ count + k →
       mainLoop m cfg st count max_files (chunk :: chunks) =
         (st1, .ok (count + k))) := by
  constructor
  · exact mainLoop_le m cfg
  · intro st count mx chunk chunks st1 k heq hstop
    rw [mainLoop, heq]
    dsimp only
    rw [if_pos hstop]

/-- Witness for C1_budget at concrete inputs: an empty chunk list stays
within a budget of 5, and with the budget already met after the first
chunk the loop stops, ignoring the remaining chunk. -/
theorem C1_budget_witness :
    (mainLoop wMainEnv wCfg ⟨[], [], []⟩ 0 5 [[]] = (⟨[], [], []⟩, .ok 0) ∧
     (0 : Nat) ≤ 5) ∧
    (fetch_files wMainEnv.env wCfg ⟨[], [], []⟩ [] (0 - 0) =
       (⟨[], [], []⟩, .ok 0) ∧
     mainLoop wMainEnv wCfg ⟨[], [], []⟩ 0 0 [[], [⟨"A", "1"⟩]] =
       (⟨[], [], []⟩, .ok 0)) := by
  refine ⟨⟨rfl, ?_⟩, rfl, ?_⟩
  · exact (C1_budget wMainEnv wCfg).1 [[]] ⟨[], [], []⟩ 0 5 ⟨[], [], []⟩ 0
      (by decide) rfl
  · exact (C1_budget wMainEnv wCfg).2 ⟨[], [], []⟩ 0 0 [] [[⟨"A", "1"⟩]]
      ⟨[], [], []⟩ 0 rfl (by decide)

/-- Claim C6 as stated is false: `download_binary` can perform 4 HTTP GET
attempts, not at most 3.  The backoff schedule `take(3)` bounds the number
of retries, so a download that fails three times and succeeds on the fourth
attempt completes successfully after 4 attempts. -/
theorem C6_counterexample :
    (download_binary id c6attempt).1 = .ok [1] ∧
    (download_binary id c6attempt).2 = 4 :=
  ⟨rfl, rfl⟩

/-- Claim C6 (amended): `download_binary` performs at most 4 HTTP GET
attempts in total (1 initial + up to 3 retries), the un-jittered backoff
schedule is exponential starting at 10 time units ([10, 100, 1000], each
then jittered), and when the result is an error all 4 attempts failed and
the error surfaced is the final attempt's. -/
theorem C6_retry_bound (jit : Nat → Nat) (attempt : Nat → Except Err (List Nat)) :
    (download_binary jit attempt).2 ≤ 4 ∧
    (∀ e, (download_binary jit attempt).1 = .error e →
      attempt 3 = .error e ∧ ∀ i, i < 4 → ∃ e2, attempt i = .error e2) ∧
    expDelays 10 3 = [10, 100, 1000] := by
  refine ⟨?_, ?_, rfl⟩
  · have h := retryGo_snd_le attempt ((expDelays 10 3).map jit) 0
    simpa [expDelays] using h
  · intro e he
    have hd : (expDelays 10 3).map jit = [jit 10, jit 100, jit 1000] := rfl
    unfold download_binary at he
    rw [hd] at he
    rw [retryGo] at he
    cases h0 : attempt 0 with
    | ok b => rw [h0] at he; exact absurd he (by simp)
    | error e0 =>
      rw [h0] at he
      simp only at he
      rw [retryGo] at he
      cases h1 : attempt 1 with
      | ok b => rw [h1] at he; exact absurd he (by simp)
      | error e1 =>
        rw [h1] at he
        simp only at he
        rw [retryGo] at he
        cases h2 : attempt 2 with
        | ok b => rw [h2] at he; exact absurd he (by simp)
        | error e2 =>
          rw [h2] at he
          simp only at he
          rw [retryGo] at he
          cases h3 : attempt 3 with
          | ok b => rw [h3] at he; exact absurd he (by simp)
          | error e3 =>
            rw [h3] at he
            simp only at he
            injection he with he2
            subst he2
            refine ⟨rfl, ?_⟩
            intro i hi
            interval_cases i
            · exact ⟨e0, h0⟩
            · exact ⟨e1, h1⟩
            · exact ⟨e2, h2⟩
            · exact ⟨_, h3⟩

/-- Witness for C6_retry_bound: with every attempt failing, the error
propagates after exactly 4 failed attempts. -/
theorem C6_retry_bound_witness :
    (download_binary id (fun _ => .error .http)).1 = .error .http ∧
    (fun _ => (.error .http : Except Err (List Nat))) 3 = .error .http := by
  refine ⟨rfl, ?_⟩
  exact ((C6_retry_bound id (fun _ => .error .http)).2.1 .http rfl).1

/-- Claim C7: `get_high_res_cover_path` returns `none` when the asset
details carry no onchain metadata, and otherwise returns exactly
`files[0].src` read as a string — `none` when that field is absent or not
a string, `some` of the raw path otherwise. -/
theorem C7_cover_path (d : AssetDetails) :
    (d.onchain_metadata = none → (get_high_res_cover_path d).1 = none) ∧
    (∀ j, d.onchain_metadata = some j →
      (get_high_res_cover_path d).1 = (((j.get "files").idx 0).get "src").asStr) := by
  constructor
  · intro h
    simp [get_high_res_cover_path, h]
  · intro j h
    simp [get_high_res_cover_path, h]

/-- Witness for C7_cover_path at concrete inputs: no metadata gives no
cover; metadata with `files[0].src = "ipfs://X"` gives exactly that path. -/
theorem C7_cover_path_witness :
    (get_high_res_cover_path ⟨none⟩).1 = none ∧
    (get_high_res_cover_path ⟨some c7json⟩).1 = some "ipfs://X" := by
  refine ⟨(C7_cover_path ⟨none⟩).1 rfl, ?_⟩
  exact ((C7_cover_path ⟨some c7json⟩).2 c7json rfl).trans rfl

/-- Claim C10: a third argument that does not parse as a `u32` silently
falls back to the default of 10 — the whole run is identical to one where
`total_files` was omitted. -/
theorem C10_malformed_total_files (m : MainEnv) (disk0 : List (String × List Nat))
    (a0 p w s : String) (h : parseU32 s = none) :
    main m disk0 [a0, p, w, s] = main m disk0 [a0, p, w] := by
  simp [main, h]

/-- Witness for C10_malformed_total_files: `"12a"` does not parse and the
run equals the three-argument run. -/
theorem C10_malformed_total_files_witness :
    parseU32 "12a" = none ∧
    main wMainEnv [] ["prog", "P", ".", "12a"] = main wMainEnv [] ["prog", "P", "."] :=
  ⟨rfl, C10_malformed_total_files wMainEnv [] "prog" "P" "." "12a" rfl⟩

/-- Claim C9 as stated is false: a metadata-resolved cover path SHORTER
THAN 7 CHARACTERS need not panic.  `String::drain(0..7)` indexes by bytes:
on the 3-character path `"a一一"` (1 + 3 + 3 = 7 bytes) the drain succeeds,
strips the whole string, and the run completes successfully — it even
downloads from the bare gateway URL and writes the file. -/
theorem C9_counterexample :
    "a一一".toList.length < 7 ∧
    (fetch_files c9Env wCfg ⟨[], [], []⟩ [⟨"S", "1"⟩] 10).2 = .ok 1 ∧
    (fetch_files c9Env wCfg ⟨[], [], []⟩ [⟨"S", "1"⟩] 10).1.disk =
      [("./S", [7])] :=
  ⟨by decide, rfl, rfl⟩

/-- Claim C9 (amended): if the metadata-resolved cover path is shorter than
7 BYTES in UTF-8, the prefix-stripping `String::drain(0..7)` panics
(range end out of bounds), aborting the run: the stripping step has the
unstated precondition that the path carries the 7-byte `ipfs://` scheme. -/
theorem C9_short_path_panics (env : Env) (cfg : Config) (needed : Nat)
    (st : St) (found : Nat) (a : AssetPolicy) (rest : List AssetPolicy)
    (q : Int) (d : AssetDetails) (p : String)
    (hq : parseI32 a.quantity = some q) (hqp : 0 < q)
    (hbr : ¬ needed ≤ found)
    (hdisk : diskHas st.disk (cfg.work_dir ++ "/" ++ a.asset) = false)
    (hd : env.assetDetails a.asset = .ok d)
    (hp : (get_high_res_cover_path d).1 = some p)
    (hlen : utf8Len p < 7) :
    (fetchGo env cfg needed st found (a :: rest)).2 = .error .panic := by
  rw [fetchGo]
  dsimp only
  rw [hq]
  dsimp only
  rw [if_neg hbr, if_pos hqp, hdisk]
  rw [if_neg (by simp : ¬ (false = true))]
  rw [hd]
  dsimp only
  rw [hp]
  dsimp only
  rw [drain7_none_of_short p hlen]

/-- Witness for C9_short_path_panics: a 3-byte cover path makes the run
abort with the modelled panic. -/
theorem C9_short_path_panics_witness :
    utf8Len "abc" < 7 ∧
    (fetch_files c9wEnv wCfg ⟨[], [], []⟩ [⟨"S", "1"⟩] 10).2 = .error .panic := by
  refine ⟨by decide, ?_⟩
  exact C9_short_path_panics c9wEnv wCfg 10 ⟨[], [], []⟩ 0 ⟨"S", "1"⟩ []
    1 ⟨some c9wjson⟩ "abc" rfl (by decide) (by decide) rfl rfl rfl (by decide)

/-- Claim C4 as stated is false: for an asset whose CID is already in the
dedup set, a gateway fetch IS performed — the download at line 135 happens
before the dedup check at line 138.  Here the CID `QQQQ` is in the dedup
set, yet the run's trace contains the gateway GET for it (only the write
is skipped; the asset is indeed not counted). -/
theorem C4_counterexample :
    c4St.hashes.contains "QQQQ" = true ∧
    Event.httpGet ("gw/" ++ "QQQQ") ∈
      (fetch_files c4Env wCfg c4St [⟨"B", "1"⟩] 10).1.trace ∧
    (fetch_files c4Env wCfg c4St [⟨"B", "1"⟩] 10).2 = .ok 0 := by
  refine ⟨rfl, by decide, rfl⟩

/-- Claim C4 (amended): for an asset whose CID is already in the dedup
set, the orchestrator still performs the gateway fetch, but skips WRITING
the file — disk and dedup set are unchanged (the continuation state `st1`
differs from `st` only in its trace) — logs the 'same as existing' notice,
and does not count the asset toward the budget (the loop continues with
the same `found`). -/
theorem C4_duplicate_skip (env : Env) (cfg : Config) (needed : Nat)
    (st : St) (found : Nat) (a : AssetPolicy) (rest : List AssetPolicy)
    (q : Int) (d : AssetDetails) (p cid : String) (data : List Nat)
    (hq : parseI32 a.quantity = some q) (hqp : 0 < q)
    (hbr : ¬ needed ≤ found)
    (hdisk : diskHas st.disk (cfg.work_dir ++ "/" ++ a.asset) = false)
    (hd : env.assetDetails a.asset = .ok d)
    (hp : (get_high_res_cover_path d).1 = some p)
    (hcid : drain7 p = some cid)
    (hdup : st.hashes.contains cid = true)
    (hdl : (download_binary env.jit (env.attempt (cfg.ipfs_gateway ++ cid))).1 =
      .ok data) :
    ∃ t : List Event,
      fetchGo env cfg needed st found (a :: rest) =
        fetchGo env cfg needed { st with trace := st.trace ++ t } found rest ∧
      Event.httpGet (cfg.ipfs_gateway ++ cid) ∈ t ∧
      Event.log ("High-res cover " ++ rustDebug p ++ " for asset " ++
        rustDebug a.asset ++ " is the same as existing one") ∈ t := by
  refine ⟨[.apiAssetDetails a.asset] ++ (get_high_res_cover_path d).2 ++
      List.replicate
        (download_binary env.jit (env.attempt (cfg.ipfs_gateway ++ cid))).2
        (.httpGet (cfg.ipfs_gateway ++ cid)) ++
      [.log ("High-res cover " ++ rustDebug p ++ " for asset " ++
        rustDebug a.asset ++ " is the same as existing one")],
    ?_, ?_, ?_⟩
  · rw [fetchGo]
    dsimp only
    rw [hq]
    dsimp only
    rw [if_neg hbr, if_pos hqp, hdisk]
    rw [if_neg (by simp : ¬ (false = true))]
    rw [hd]
    dsimp only
    rw [hp]
    dsimp only
    rw [hcid]
    dsimp only
    rw [hdl]
    dsimp only
    rw [hdup]
    rw [if_neg (by simp : ¬ (¬ (true = true)))]
    simp only [stLog, List.append_assoc]
  · have hpos2 : 1 ≤ (download_binary env.jit
        (env.attempt (cfg.ipfs_gateway ++ cid))).2 := by
      unfold download_binary
      exact retryGo_snd_pos _ _ 0
    exact List.mem_append_left _
      (List.mem_append_right _ (List.mem_replicate.mpr ⟨by omega, rfl⟩))
  · simp

/-- Witness for C4_duplicate_skip at the concrete duplicate run: the CID
is in the dedup set, the gateway bytes resolve, and the step skips only
the write. -/
theorem C4_duplicate_skip_witness :
    c4St.hashes.contains "QQQQ" = true ∧
    ∃ t : List Event,
      fetchGo c4Env wCfg 10 c4St 0 [⟨"B", "1"⟩] =
        fetchGo c4Env wCfg 10 { c4St with trace := c4St.trace ++ t } 0 [] ∧
      Event.httpGet (wCfg.ipfs_gateway ++ "QQQQ") ∈ t ∧
      Event.log ("High-res cover " ++ rustDebug "ipfs://QQQQ" ++ " for asset " ++
        rustDebug "B" ++ " is the same as existing one") ∈ t := by
  refine ⟨rfl, ?_⟩
  exact C4_duplicate_skip c4Env wCfg 10 c4St 0 ⟨"B", "1"⟩ [] 1
    ⟨some c4json⟩ "ipfs://QQQQ" "QQQQ" [5]
    rfl (by decide) (by decide) rfl rfl rfl rfl rfl rfl

/-- Claim C3: two assets in one run whose resolved CIDs coincide produce
exactly one write to disk across both (the rename count of the trace grows
by exactly one), the run counts one file, and the second asset is skipped
with the 'same as existing' notice. -/
theorem C3_one_write_per_cid (env : Env) (cfg : Config) (st : St)
    (needed : Nat) (a1 a2 : AssetPolicy) (q1 q2 : Int)
    (d1 d2 : AssetDetails) (p1 p2 cid : String) (data : List Nat)
    (hq1 : parseI32 a1.quantity = some q1) (hq1p : 0 < q1)
    (hq2 : parseI32 a2.quantity = some q2) (hq2p : 0 < q2)
    (hneed : 2 ≤ needed)
    (hne : cfg.work_dir ++ "/" ++ a1.asset ≠ cfg.work_dir ++ "/" ++ a2.asset)
    (hdisk1 : diskHas st.disk (cfg.work_dir ++ "/" ++ a1.asset) = false)
    (hdisk2 : diskHas st.disk (cfg.work_dir ++ "/" ++ a2.asset) = false)
    (hd1 : env.assetDetails a1.asset = .ok d1)
    (hd2 : env.assetDetails a2.asset = .ok d2)
    (hp1 : (get_high_res_cover_path d1).1 = some p1)
    (hp2 : (get_high_res_cover_path d2).1 = some p2)
    (hcid1 : drain7 p1 = some cid) (hcid2 : drain7 p2 = some cid)
    (hfresh : st.hashes.contains cid = false)
    (hdl : (download_binary env.jit (env.attempt (cfg.ipfs_gateway ++ cid))).1 =
      .ok data)
    (hw : env.writeOk (cfg.work_dir ++ "/" ++ a1.asset ++ ".tmp") data = true)
    (hr : env.renameOk (cfg.work_dir ++ "/" ++ a1.asset ++ ".tmp")
      (cfg.work_dir ++ "/" ++ a1.asset) = true) :
    (fetch_files env cfg st [a1, a2] needed).2 = .ok 1 ∧
    (fetch_files env cfg st [a1, a2] needed).1.trace.countP isRename =
      st.trace.countP isRename + 1 ∧
    Event.log ("High-res cover " ++ rustDebug p2 ++ " for asset " ++
      rustDebug a2.asset ++ " is the same as existing one") ∈
      (fetch_files env cfg st [a1, a2] needed).1.trace := by
  have hdisk2' : diskHas
      (diskRemove (st.disk ++ [(cfg.work_dir ++ "/" ++ a1.asset ++ ".tmp", data)])
          (cfg.work_dir ++ "/" ++ a1.asset ++ ".tmp") ++
        [(cfg.work_dir ++ "/" ++ a1.asset, data)])
      (cfg.work_dir ++ "/" ++ a2.asset) = false := by
    rw [diskHas_append, diskRemove_append_self]
    rw [diskHas_remove_false st.disk _ _ hdisk2]
    rw [diskHas_singleton_false _ _ _ hne]
    rfl
  have hdup' : (insertHash st.hashes cid).contains cid = true :=
    insertHash_contains_self st.hashes cid
  simp only [fetch_files]
  rw [fetchGo_write_step env cfg needed st 0 a1 [a2] q1 d1 p1 cid data
    hq1 hq1p (by omega) hdisk1 hd1 hp1 hcid1 hfresh hdl hw hr]
  rw [fetchGo_dup_step env cfg needed _ 1 a2 [] q2 d2 p2 cid data
    hq2 hq2p (by omega) hdisk2' hd2 hp2 hcid2 hdup' hdl]
  rw [fetchGo]
  refine ⟨rfl, ?_, ?_⟩
  · simp [List.countP_append, List.countP_cons, isRename,
      countP_isRename_cover, countP_isRename_replicate]
  · simp [List.mem_append]

/-- Witness for C3_one_write_per_cid: assets A and C both resolve to CID
`QmSAME`; exactly one write occurs and C is skipped with the notice. -/
theorem C3_one_write_per_cid_witness :
    (([] : List String).contains "QmSAME" = false) ∧
    (fetch_files c3Env wCfg ⟨[], [], []⟩ [⟨"A", "1"⟩, ⟨"C", "1"⟩] 10).2 = .ok 1 ∧
    (fetch_files c3Env wCfg ⟨[], [], []⟩
        [⟨"A", "1"⟩, ⟨"C", "1"⟩] 10).1.trace.countP isRename =
      (⟨[], [], []⟩ : St).trace.countP isRename + 1 ∧
    Event.log ("High-res cover " ++ rustDebug "ipfs://QmSAME" ++ " for asset " ++
      rustDebug "C" ++ " is the same as existing one") ∈
      (fetch_files c3Env wCfg ⟨[], [], []⟩ [⟨"A", "1"⟩, ⟨"C", "1"⟩] 10).1.trace := by
  refine ⟨rfl, ?_⟩
  exact C3_one_write_per_cid c3Env wCfg ⟨[], [], []⟩ 10
    ⟨"A", "1"⟩ ⟨"C", "1"⟩ 1 1 ⟨some c3jsonA⟩ ⟨some c3jsonC⟩
    "ipfs://QmSAME" "ipfs://QmSAME" "QmSAME" [97]
    rfl (by decide) rfl (by decide) (by decide) (by decide)
    rfl rfl rfl rfl rfl rfl rfl rfl rfl rfl rfl rfl

/-- Claim C5: a file appears at a path only holding the complete bytes of
a successfully retrieved download — whatever the outcome of the run, every
file on disk afterwards either predates the run or holds exactly the full
payload of a successful `download_binary` result, so a failure during
writing never leaves a partially-written file at the final path; and every
rename the run performs moves `name ++ ".tmp"` (the temp file the bytes
were first written to) onto the final `name`. -/
theorem C5_atomic_writes (env : Env) (cfg : Config) (st : St)
    (assets : List AssetPolicy) (needed : Nat) :
    (∀ (f : String) (c : List Nat),
      (f, c) ∈ (fetch_files env cfg st assets needed).1.disk →
      (f, c) ∈ st.disk ∨
      ∃ url, (download_binary env.jit (env.attempt url)).1 = .ok c) ∧
    (∀ s dd : String,
      Event.fsRename s dd ∈ (fetch_files env cfg st assets needed).1.trace →
      Event.fsRename s dd ∈ st.trace ∨ s = dd ++ ".tmp") :=
  ⟨fun f c h => fetchGo_disk_provenance env cfg needed assets st 0 f c h,
   fun s dd h => fetchGo_rename_prop env cfg needed assets st 0 s dd h⟩

/-- Witness for C5_atomic_writes on a concrete run: the new file `./A`
holds the complete gateway payload `[97]`, and the recorded rename moves
`./A.tmp` to `./A`. -/
theorem C5_atomic_writes_witness :
    (("./A", [97]) ∈
      (fetch_files c3Env wCfg ⟨[], [], []⟩ [⟨"A", "1"⟩] 10).1.disk) ∧
    ((("./A", ([97] : List Nat)) ∈ ([] : List (String × List Nat))) ∨
      ∃ url, (download_binary c3Env.jit (c3Env.attempt url)).1 = .ok [97]) ∧
    (Event.fsRename "./A.tmp" "./A" ∈
      (fetch_files c3Env wCfg ⟨[], [], []⟩ [⟨"A", "1"⟩] 10).1.trace) ∧
    ((Event.fsRename "./A.tmp" "./A" ∈ ([] : List Event)) ∨
      "./A.tmp" = "./A" ++ ".tmp") := by
  refine ⟨by decide, ?_, by decide, ?_⟩
  · exact (C5_atomic_writes c3Env wCfg ⟨[], [], []⟩ [⟨"A", "1"⟩] 10).1
      "./A" [97] (by decide)
  · exact (C5_atomic_writes c3Env wCfg ⟨[], [], []⟩ [⟨"A", "1"⟩] 10).2
      "./A.tmp" "./A" (by decide)

/-- Claim C8: when the policy id is not in the set returned by the
directory service (in particular when a non-success status makes that set
empty), the run makes no blockchain-data API calls, produces exactly one
'invalid policy id' message, and exits successfully: the final trace is
precisely the directory GET followed by that single message, and the
result is `ok`. -/
theorem C8_invalid_policy (m : MainEnv) (disk0 : List (String × List Nat))
    (args : List String) (p : String) (ids : List String)
    (hlen : (args.length == 1) = false)
    (hp : args.get? 1 = some p)
    (hapi : m.buildApi = .ok ())
    (hcols : collectionsResult m = .ok ids)
    (hnot : ids.contains p = false) :
    main m disk0 args =
      ({ disk := disk0, hashes := [],
         trace := [.httpGet BOOK_IO_COLLECTIONS_URL,
                   .log ("invalid policy id " ++ rustDebug p)] }, .ok ()) := by
  rw [main]
  dsimp only
  rw [hlen]
  rw [if_neg (by simp : ¬ (false = true))]
  rw [hp]
  dsimp only
  rw [hapi]
  dsimp only [collections]
  rw [hcols]
  dsimp only
  rw [hnot]
  rw [if_neg (by simp : ¬ (false = true))]
  simp [stLog]

/-- Witness for C8_invalid_policy: the directory service answers with a
non-success status (empty set), so policy `P` is rejected with the single
message and a successful exit. -/
theorem C8_invalid_policy_witness :
    wMainEnv.collectionsStatusOk = false ∧
    main wMainEnv [] ["prog", "P"] =
      ({ disk := [], hashes := [],
         trace := [.httpGet BOOK_IO_COLLECTIONS_URL,
                   .log ("invalid policy id " ++ rustDebug "P")] }, .ok ()) :=
  ⟨rfl, C8_invalid_policy wMainEnv [] ["prog", "P"] "P" [] rfl rfl rfl rfl rfl⟩

set_option maxRecDepth 100000 in
/-- Claim C2 names a real bug in the code: the disk-reconciliation hash
never matches a metadata CID, so a later asset whose cover resolves to the
SAME content as an already-present file is written under a different name
instead of being skipped.  Asset A's file (content `[97]`) is on disk, so
its `calculate_cid` — the lossy-UTF-8 decoding of the raw SHA-256 digest —
enters the dedup set; yet asset B, whose metadata CID resolves (via the
gateway) to the same content `[97]`, fails the dedup test (the raw-digest
string cannot equal the base-encoded CID string) and is written to `./B`,
leaving two files with identical content after a count of 2.  This
contradicts the source's own comments 'calculate the hash so we don't
download it again under a different name' and 'sha2-256 (same as ipfs)'. -/
theorem C2_hash_mismatch_bug :
    calculate_cid [97] ≠ "QmbWqxBEKC3P8tqsKc98xmWNzrzDtRLMiMPL8wBuTGsMnR" ∧
    (fetch_files c2Env wCfg c2St [⟨"A", "1"⟩, ⟨"B", "1"⟩] 10).2 = .ok 2 ∧
    ("./A", [97]) ∈
      (fetch_files c2Env wCfg c2St [⟨"A", "1"⟩, ⟨"B", "1"⟩] 10).1.disk ∧
    ("./B", [97]) ∈
      (fetch_files c2Env wCfg c2St [⟨"A", "1"⟩, ⟨"B", "1"⟩] 10).1.disk := by
  refine ⟨by decide, rfl, by decide, by decide⟩

end BookCovers
